import Mathlib

/-!
Verification development for the ScaBench baseline runner
(`baseline-runner/baseline_runner.py`).

The Python module is shallowly embedded here.  Pure computations (the
MD5-based finding identifier, the response normalizer, the dedup fold,
the per-file loop body and result assembly) are translated directly from
the source.  Effectful boundaries (the filesystem enumeration, the file
reads, the LLM completion request together with `json.loads` of its
body) are represented by explicit inputs: each candidate file carries
the outcome of its read and the outcome of its request as `Except`
values, mirroring Python's raise/return distinction.  Machine integers
do not occur (Python ints are unbounded); the 32-bit words inside MD5
are `Nat` reduced modulo `2 ^ 32`.  Python floats that hold JSON
numbers (the `confidence` field) are modelled as `Rat`; no claim
depends on binary rounding.
-/

/-! ## MD5 (models `hashlib.md5(...).hexdigest()` from the Python stdlib)

`Finding.__post_init__` (source lines 53-57) derives the finding id
from `hashlib.md5(id_source.encode()).hexdigest()[:16]`.  The full MD5
algorithm over UTF-8 bytes is embedded below; bytes and 32-bit words
are `Nat`, wrapped with `% 4294967296` where the algorithm overflows. -/

def u32 : Nat := 4294967296

/-- UTF-8 encoding of one character, as byte values (models `str.encode()`). -/
def utf8EncodeCharNat (c : Char) : List Nat :=
  let n := c.toNat
  if n < 128 then [n]
  else if n < 2048 then [192 + n / 64, 128 + n % 64]
  else if n < 65536 then [224 + n / 4096, 128 + n / 64 % 64, 128 + n % 64]
  else [240 + n / 262144, 128 + n / 4096 % 64, 128 + n / 64 % 64, 128 + n % 64]

/-- UTF-8 bytes of a string (models `str.encode()`). -/
def utf8Bytes (s : String) : List Nat :=
  s.data.flatMap utf8EncodeCharNat

/-- Left-rotation of a 32-bit word held in a `Nat`. -/
def rotl32 (x s : Nat) : Nat :=
  (x * 2 ^ s + x / 2 ^ (32 - s)) % u32

/-- The 64 MD5 round constants (`floor(2^32 * abs(sin(i+1)))`). -/
def mdK : List Nat :=
  [0xd76aa478, 0xe8c7b756, 0x242070db, 0xc1bdceee,
   0xf57c0faf, 0x4787c62a, 0xa8304613, 0xfd469501,
   0x698098d8, 0x8b44f7af, 0xffff5bb1, 0x895cd7be,
   0x6b901122, 0xfd987193, 0xa679438e, 0x49b40821,
   0xf61e2562, 0xc040b340, 0x265e5a51, 0xe9b6c7aa,
   0xd62f105d, 0x02441453, 0xd8a1e681, 0xe7d3fbc8,
   0x21e1cde6, 0xc33707d6, 0xf4d50d87, 0x455a14ed,
   0xa9e3e905, 0xfcefa3f8, 0x676f02d9, 0x8d2a4c8a,
   0xfffa3942, 0x8771f681, 0x6d9d6122, 0xfde5380c,
   0xa4beea44, 0x4bdecfa9, 0xf6bb4b60, 0xbebfbc70,
   0x289b7ec6, 0xeaa127fa, 0xd4ef3085, 0x04881d05,
   0xd9d4d039, 0xe6db99e5, 0x1fa27cf8, 0xc4ac5665,
   0xf4292244, 0x432aff97, 0xab9423a7, 0xfc93a039,
   0x655b59c3, 0x8f0ccc92, 0xffeff47d, 0x85845dd1,
   0x6fa87e4f, 0xfe2ce6e0, 0xa3014314, 0x4e0811a1,
   0xf7537e82, 0xbd3af235, 0x2ad7d2bb, 0xeb86d391]

/-- The 64 per-round left-rotation amounts of MD5. -/
def mdS : List Nat :=
  [7, 12, 17, 22, 7, 12, 17, 22, 7, 12, 17, 22, 7, 12, 17, 22,
   5, 9, 14, 20, 5, 9, 14, 20, 5, 9, 14, 20, 5, 9, 14, 20,
   4, 11, 16, 23, 4, 11, 16, 23, 4, 11, 16, 23, 4, 11, 16, 23,
   6, 10, 15, 21, 6, 10, 15, 21, 6, 10, 15, 21, 6, 10, 15, 21]

/-- The four 32-bit registers of the MD5 state. -/
structure MD5St where
  a : Nat
  b : Nat
  c : Nat
  d : Nat

/-- Round mixing function and message-word index for round `i`. -/
def md5F (st : MD5St) (i : Nat) : Nat × Nat :=
  if i < 16 then
    ((st.b &&& st.c) ||| ((0xffffffff ^^^ st.b) &&& st.d), i)
  else if i < 32 then
    ((st.d &&& st.b) ||| ((0xffffffff ^^^ st.d) &&& st.c), (5 * i + 1) % 16)
  else if i < 48 then
    (st.b ^^^ st.c ^^^ st.d, (3 * i + 5) % 16)
  else
    (st.c ^^^ (st.b ||| (0xffffffff ^^^ st.d)), (7 * i) % 16)

/-- One of the 64 MD5 rounds over the 16 message words `M`. -/
def md5Step (M : List Nat) (st : MD5St) (i : Nat) : MD5St :=
  let fg := md5F st i
  let f := (fg.1 + st.a + mdK.getD i 0 + M.getD fg.2 0) % u32
  { a := st.d, b := (st.b + rotl32 f (mdS.getD i 0)) % u32, c := st.b, d := st.c }

/-- The 16 little-endian 32-bit words of one 64-byte chunk. -/
def chunkWords (chunk : List Nat) : List Nat :=
  (List.range 16).map fun g =>
    chunk.getD (4 * g) 0 + 256 * chunk.getD (4 * g + 1) 0 +
      65536 * chunk.getD (4 * g + 2) 0 + 16777216 * chunk.getD (4 * g + 3) 0

/-- Process one 64-byte chunk: 64 rounds, then add into the running state. -/
def md5ProcessChunk (st : MD5St) (chunk : List Nat) : MD5St :=
  let M := chunkWords chunk
  let e := (List.range 64).foldl (md5Step M) st
  { a := (st.a + e.a) % u32, b := (st.b + e.b) % u32,
    c := (st.c + e.c) % u32, d := (st.d + e.d) % u32 }

/-- The fixed MD5 initial state. -/
def md5Init : MD5St := ⟨0x67452301, 0xefcdab89, 0x98badcfe, 0x10325476⟩

/-- MD5 padding: a `0x80` byte, zeros up to 56 mod 64, then the original
bit length as 8 little-endian bytes. -/
def padMsg (msg : List Nat) : List Nat :=
  let len := msg.length
  let zeros := (56 + 64 - (len + 1) % 64) % 64
  msg ++ [128] ++ List.replicate zeros 0 ++
    (List.range 8).map fun i => 8 * len / 256 ^ i % 256

/-- Accumulate bytes into 64-byte chunks (structural recursion, so the
kernel can evaluate digests; a trailing partial buffer cannot occur on
padded input, whose length is a multiple of 64). -/
def toChunksGo (l buf : List Nat) : List (List Nat) :=
  match l with
  | [] => if buf = [] then [] else [buf]
  | b :: rest =>
    if buf.length = 63 then (buf ++ [b]) :: toChunksGo rest []
    else toChunksGo rest (buf ++ [b])

/-- Split a byte list into 64-byte chunks. -/
def toChunks (l : List Nat) : List (List Nat) :=
  toChunksGo l []

/-- Final MD5 state for a byte message. -/
def md5Final (msg : List Nat) : MD5St :=
  (toChunks (padMsg msg)).foldl md5ProcessChunk md5Init

/-- Little-endian byte serialization of a 32-bit word. -/
def wordLEBytes (w : Nat) : List Nat :=
  [w % 256, w / 256 % 256, w / 65536 % 256, w / 16777216 % 256]

/-- The 16 digest bytes of MD5 over a byte message. -/
def md5Bytes (msg : List Nat) : List Nat :=
  wordLEBytes (md5Final msg).a ++ wordLEBytes (md5Final msg).b ++
    wordLEBytes (md5Final msg).c ++ wordLEBytes (md5Final msg).d

/-- Lowercase hex character for a value below 16. -/
def hexChar (n : Nat) : Char :=
  if n < 10 then Char.ofNat (48 + n) else Char.ofNat (87 + n)

/-- Two lowercase hex characters of one byte. -/
def byteHex (b : Nat) : List Char :=
  [hexChar (b / 16 % 16), hexChar (b % 16)]

/-- The 32 characters of `hashlib.md5(s.encode()).hexdigest()`. -/
def md5HexChars (s : String) : List Char :=
  ((md5Bytes (utf8Bytes s)).map byteHex).flatten

/-- `hashlib.md5(s.encode()).hexdigest()` as a string. -/
def md5Hex (s : String) : String :=
  (md5HexChars s).asString

/-! ## Data model (source lines 31-69) -/

/-- A parsed JSON value, as produced by `json.loads`.  Numbers are `Rat`
(Python parses them to `int`/`float`; every JSON numeral is an exact
rational and no claim depends on binary float rounding).  Objects are
association lists; Python's `json.loads` keeps one value per key, so the
first binding of a key is the authoritative one here. -/
inductive Json where
  | null : Json
  | bool (b : Bool) : Json
  | num (q : Rat) : Json
  | str (s : String) : Json
  | arr (l : List Json) : Json
  | obj (kvs : List (String × Json)) : Json

/-- The `Finding` dataclass (source lines 39-51).  Field types follow the
dataclass annotations: strings, and `confidence` as a number (`Rat`). -/
structure Finding where
  title : String
  description : String
  vulnerability_type : String
  severity : String
  confidence : Rat
  location : String
  file : String
  id : String
  reported_by_model : String
  status : String
deriving DecidableEq, Repr

/-- The identifier `hashlib.md5(f"\x7bfile\x7d:\x7btitle\x7d".encode()).hexdigest()[:16]`
computed by `Finding.__post_init__` (source lines 53-57). -/
def findingId (file title : String) : String :=
  ((md5HexChars (file ++ ":" ++ title)).take 16).asString

/-- The `Finding` constructor followed by `__post_init__` (source lines
39-57): when the supplied `id` is the empty string (the dataclass
default) the content-derived hash is assigned, otherwise the supplied id
is kept.  The dataclass defaults `id=""`, `reported_by_model=""`,
`status="proposed"` are passed explicitly by callers here. -/
def mkFinding (title description vulnerability_type severity : String)
    (confidence : Rat) (location file id reported_by_model status : String) : Finding :=
  { title := title, description := description,
    vulnerability_type := vulnerability_type, severity := severity,
    confidence := confidence, location := location, file := file,
    id := if id = "" then findingId file title else id,
    reported_by_model := reported_by_model, status := status }

/-- Per-project token accounting, the `token_usage` dict of the result
(source lines 334-338). -/
structure TokenUsage where
  input_tokens : Nat
  output_tokens : Nat
  total_tokens : Nat
deriving DecidableEq, Repr

/-- The `AnalysisResult` dataclass (source lines 60-69). -/
structure AnalysisResult where
  project : String
  timestamp : String
  files_analyzed : Nat
  files_skipped : Nat
  total_findings : Nat
  findings : List Finding
  token_usage : TokenUsage
deriving DecidableEq, Repr

/-! ## Finding normalizer (source lines 185-212) -/

/-- Candidate-object field access `f_data.get(key, dflt)` for string
fields.  Python's `dict.get` returns the stored value unconditionally
and the dataclass does not coerce types; a present value that is not a
string would make Python build a `Finding` violating its own `str`
annotation.  No claim concerns those inputs, so they are marked
`Except.error` (outside the modelled well-typed domain) rather than
silently defaulted. -/
def getStr (kvs : List (String × Json)) (key dflt : String) : Except Unit String :=
  match List.lookup key kvs with
  | none => .ok dflt
  | some (.str s) => .ok s
  | some _ => .error ()

/-- Candidate-object field access `f_data.get(key, dflt)` for the
numeric `confidence` field; same domain convention as `getStr`. -/
def getNum (kvs : List (String × Json)) (key : String) (dflt : Rat) : Except Unit Rat :=
  match List.lookup key kvs with
  | none => .ok dflt
  | some (.num q) => .ok q
  | some _ => .error ()

/-- Shape dispatch on the parsed response (source lines 187-197): a list
is taken as-is; a mapping prefers key `findings`, then `vulnerabilities`,
then is treated as a single finding when it has a `title` key; anything
else yields no findings.  A `findings`/`vulnerabilities` value that is
not an array makes Python's subsequent `for`/`.get` raise (caught by the
enclosing handler); that is the `Except.error` case.  (The degenerate
iterables `""` and `\x7b\x7d` as values, which Python would iterate to zero
candidates, are outside the modelled domain; no claim touches them.) -/
def extractFindingsData (result : Json) : Except Unit (List Json) :=
  match result with
  | .arr l => .ok l
  | .obj kvs =>
    match List.lookup "findings" kvs with
    | some (.arr l) => .ok l
    | some _ => .error ()
    | none =>
      match List.lookup "vulnerabilities" kvs with
      | some (.arr l) => .ok l
      | some _ => .error ()
      | none =>
        match List.lookup "title" kvs with
        | some _ => .ok [.obj kvs]
        | none => .ok []
  | _ => .ok []

/-- Conversion of one candidate object to a `Finding` (source lines
202-211): defensive defaults per field, `file` always the real analyzed
filename, `reported_by_model` always the configured model, `id` left to
`__post_init__`.  A non-mapping candidate makes Python's `.get` raise
`AttributeError` (caught by the enclosing handler): the `.error` case. -/
def buildFinding (model fileName : String) (f_data : Json) : Except Unit Finding :=
  match f_data with
  | .obj kvs =>
    match getStr kvs "title" "Unknown" with
    | .error e => .error e
    | .ok title =>
      match getStr kvs "description" "" with
      | .error e => .error e
      | .ok description =>
        match getStr kvs "vulnerability_type" "other" with
        | .error e => .error e
        | .ok vulnType =>
          match getStr kvs "severity" "medium" with
          | .error e => .error e
          | .ok severity =>
            match getNum kvs "confidence" (1 / 2) with
            | .error e => .error e
            | .ok confidence =>
              match getStr kvs "location" "unknown" with
              | .error e => .error e
              | .ok location =>
                .ok (mkFinding title description vulnType severity confidence
                      location fileName "" model "proposed")
  | _ => .error ()

/-- The whole normalization of one parsed response: shape dispatch, then
conversion of every candidate (the `for f_data in findings_data` loop;
an exception at any candidate discards the whole batch, as Python's
enclosing handler does). -/
def normalizeResponse (model fileName : String) (result : Json) :
    Except Unit (List Finding) :=
  extractFindingsData result >>= fun l => l.mapM (buildFinding model fileName)

/-! ## File analyzer (source lines 94-223)

The prompt construction and the completion request (lines 100-165) only
shape the outgoing request; the analyzer's returned value depends on the
request's outcome.  That outcome — everything fallible between entering
the `try` block and `json.loads` of the response body (network failure,
missing usage, empty body parsed as `\x7b\x7d`) — is an explicit input:
`.error` for a raised exception, `.ok (input_tokens, output_tokens,
parsed)` otherwise. -/

/-- `analyze_file` (source lines 94-223): on any exception inside the
`try` block (request, parse, or normalization) it returns `([], 0, 0)`;
otherwise the normalized findings with the token counters. -/
def analyzeFile (model fileName : String)
    (outcome : Except Unit (Nat × Nat × Json)) : List Finding × Nat × Nat :=
  match outcome with
  | .error _ => ([], 0, 0)
  | .ok (inputTokens, outputTokens, result) =>
    match normalizeResponse model fileName result with
    | .error _ => ([], 0, 0)
    | .ok findings => (findings, inputTokens, outputTokens)

/-! ## Project analyzer (source lines 226-344) -/

/-- Blank-content test `not content.strip()` (source line 304): true iff
every character is whitespace.  Python's whitespace class is modelled by
`Char.isWhitespace`; no claim depends on exotic Unicode spaces. -/
def pyIsBlank (content : String) : Bool :=
  content.data.all Char.isWhitespace

/-- One candidate file of the per-file loop.  `name` is `file_path.name`;
`read` is the outcome of `open`/`read` (source lines 301-302, `.error`
when it raises); `outcome` is the request outcome consumed by
`analyzeFile` if the file is submitted. -/
structure FileTask where
  name : String
  read : Except Unit String
  outcome : Except Unit (Nat × Nat × Json)

/-- The accumulators of the per-file loop (source lines 280-284). -/
structure LoopState where
  all_findings : List Finding
  files_analyzed : Nat
  files_skipped : Nat
  total_input_tokens : Nat
  total_output_tokens : Nat

/-- The body of the per-file loop (source lines 297-319): a failed read
increments `files_skipped`; blank content increments `files_skipped`
without invoking the analyzer; otherwise the file is submitted, its
findings appended, `files_analyzed` incremented and token counters
summed. -/
def procFile (model : String) (st : LoopState) (task : FileTask) : LoopState :=
  match task.read with
  | .error _ => { st with files_skipped := st.files_skipped + 1 }
  | .ok content =>
    if pyIsBlank content then
      { st with files_skipped := st.files_skipped + 1 }
    else
      { st with
        all_findings := st.all_findings ++ (analyzeFile model task.name task.outcome).1,
        files_analyzed := st.files_analyzed + 1,
        total_input_tokens :=
          st.total_input_tokens + (analyzeFile model task.name task.outcome).2.1,
        total_output_tokens :=
          st.total_output_tokens + (analyzeFile model task.name task.outcome).2.2 }

/-- The dedup fold (source lines 321-325): findings are folded into an
insertion-ordered, id-keyed mapping where a finding is inserted only if
its id is not yet a key; `list(unique_findings.values())` is the list of
first occurrences in order, represented here directly as that list (its
id set plays the key set of the dict). -/
def pyDedup (findings : List Finding) : List Finding :=
  findings.foldl
    (fun acc f => if acc.any (fun g => g.id == f.id) then acc else acc ++ [f]) []

/-- `analyze_project` from selection onward (source lines 265-344): the
discovered candidate list (filesystem enumeration, lines 243-263) enters
as `files`; `timestamp` stands for `datetime.now().isoformat()`.  An
empty candidate list short-circuits to the all-zero result (lines
265-275); otherwise the per-file loop runs, findings are deduplicated
and the result assembled (lines 280-339). -/
def analyzeProject (model project timestamp : String)
    (files : List FileTask) : AnalysisResult :=
  if files.isEmpty then
    { project := project, timestamp := timestamp, files_analyzed := 0,
      files_skipped := 0, total_findings := 0, findings := [],
      token_usage := ⟨0, 0, 0⟩ }
  else
    let st := files.foldl (procFile model) ⟨[], 0, 0, 0, 0⟩
    { project := project, timestamp := timestamp,
      files_analyzed := st.files_analyzed, files_skipped := st.files_skipped,
      total_findings := (pyDedup st.all_findings).length,
      findings := pyDedup st.all_findings,
      token_usage := ⟨st.total_input_tokens, st.total_output_tokens,
          st.total_input_tokens + st.total_output_tokens⟩ }

/-! ## File selection post-filter (source lines 261-263) -/

/-- One discovered path.  `path` is the `Path` value (pathlib compares
paths by their normalized string, the identity `set` and `in` use);
`name` its final component; `isFile` the `is_file()` attribute of that
path during the run. -/
structure PathEntry where
  path : String
  name : String
  isFile : Bool

/-- Substring test of `needle` inside `hay` (models Python's `in` on
strings). -/
def hasSub (hay needle : List Char) : Bool :=
  needle.isPrefixOf hay ||
    match hay with
    | [] => false
    | _ :: t => hasSub t needle

/-- `list(set(files))` (source line 262): one entry per path value.  The
iteration order of a Python `set` is unspecified; the first occurrence
is the representative here, and no claim depends on the order. -/
def setDedup (files : List PathEntry) : List PathEntry :=
  files.foldl
    (fun acc x => if acc.any (fun y => y.path == x.path) then acc else acc ++ [x]) []

/-- The selection post-filter (source lines 261-263): drop duplicate
paths, then keep only regular files whose name, lowercased, does not
contain `"test"`. -/
def selectFilter (files : List PathEntry) : List PathEntry :=
  (setDedup files).filter fun f => f.isFile && !hasSub f.name.toLower.data "test".data

/-! ## First-wins deduplication, generically

Both `pyDedup` (dict keyed by `Finding.id`) and `setDedup` (`set` of
paths) keep, for every key, the first element carrying it.  The shared
theory is developed for an arbitrary string-valued key. -/

/-- Recursive form of first-wins dedup by a key: keep the head, drop
every later element with its key, recurse. -/
def fwBy {α : Type} (k : α → String) : List α → List α
  | [] => []
  | x :: rest => x :: fwBy k (rest.filter fun y => !(k y == k x))
termination_by l => l.length
decreasing_by
  have := List.length_filter_le (fun y => !(k y == k x)) rest
  simp only [List.length_cons]
  omega

theorem fwBy_nil {α : Type} (k : α → String) : fwBy k [] = [] := by
  rw [fwBy]

theorem fwBy_cons {α : Type} (k : α → String) (x : α) (rest : List α) :
    fwBy k (x :: rest) = x :: fwBy k (rest.filter fun y => !(k y == k x)) := by
  rw [fwBy]

/-- Folding the dict-insertion step from any accumulator appends the
first-wins dedup of the not-yet-keyed suffix. -/
theorem foldl_step_eq_fwBy {α : Type} (k : α → String) (l : List α) :
    ∀ acc : List α,
      l.foldl (fun acc x => if acc.any (fun y => k y == k x) then acc else acc ++ [x]) acc
        = acc ++ fwBy k (l.filter fun x => !(acc.any fun y => k y == k x)) := by
  induction l with
  | nil => intro acc; simp [fwBy_nil]
  | cons x t ih =>
    intro acc
    simp only [List.foldl_cons]
    by_cases hx : acc.any (fun y => k y == k x) = true
    · rw [if_pos hx, ih acc]
      have hdrop : (x :: t).filter (fun z => !(acc.any fun y => k y == k z))
          = t.filter (fun z => !(acc.any fun y => k y == k z)) := by
        simp [List.filter_cons, hx]
      rw [hdrop]
    · rw [if_neg hx, ih (acc ++ [x])]
      have hxf : acc.any (fun y => k y == k x) = false := by
        cases h : acc.any (fun y => k y == k x)
        · rfl
        · exact absurd h hx
      have hfilter :
          t.filter (fun z => !((acc ++ [x]).any fun y => k y == k z))
            = (t.filter fun z => !(acc.any fun y => k y == k z)).filter
                (fun z => !(k z == k x)) := by
        rw [List.filter_filter]
        apply List.filter_congr
        intro z _
        simp only [List.any_append, List.any_cons, List.any_nil, Bool.or_false,
          Bool.not_or]
        rw [Bool.and_comm]
        have hsymm : (k x == k z) = (k z == k x) := by
          by_cases h : k x = k z
          · simp [h]
          · have h' : ¬ k z = k x := fun hc => h hc.symm
            simp [h, h']
        rw [hsymm]
      have hcons : (x :: t).filter (fun z => !(acc.any fun y => k y == k z))
          = x :: t.filter (fun z => !(acc.any fun y => k y == k z)) := by
        simp [List.filter_cons, hxf]
      rw [hcons, fwBy_cons, hfilter]
      simp [List.append_assoc]

/-- The first-wins result is a sublist of the input: retained findings
appear in their original order and nothing new is introduced. -/
theorem fwBy_sublist {α : Type} (k : α → String) : ∀ l : List α, (fwBy k l).Sublist l := by
  intro l
  induction l using fwBy.induct k with
  | case1 => simp [fwBy_nil]
  | case2 x rest ih =>
    rw [fwBy_cons]
    exact (ih.trans (List.filter_sublist rest)).cons₂ x

theorem mem_of_mem_fwBy {α : Type} {k : α → String} {l : List α} {y : α}
    (h : y ∈ fwBy k l) : y ∈ l :=
  (fwBy_sublist k l).subset h

/-- The keys of the first-wins result are pairwise distinct. -/
theorem fwBy_keys_nodup {α : Type} (k : α → String) :
    ∀ l : List α, ((fwBy k l).map k).Nodup := by
  intro l
  induction l using fwBy.induct k with
  | case1 => simp [fwBy_nil]
  | case2 x rest ih =>
    rw [fwBy_cons]
    refine List.nodup_cons.mpr ⟨?_, ih⟩
    intro hmem
    rcases List.mem_map.mp hmem with ⟨y, hy, hky⟩
    have hyf := mem_of_mem_fwBy hy
    have := List.of_mem_filter hyf
    simp only [Bool.not_eq_true', beq_eq_false_iff_ne, ne_eq] at this
    exact this hky

/-- Filtering away only elements the search predicate rejects does not
change the result of `find?`. -/
theorem find?_filter_of_imp {α : Type} (p q : α → Bool)
    (himp : ∀ a, p a = true → q a = true) :
    ∀ l : List α, (l.filter q).find? p = l.find? p := by
  intro l
  induction l with
  | nil => rfl
  | cons a t ih =>
    by_cases hq : q a = true
    · simp only [List.filter_cons, hq, if_pos]
      by_cases hp : p a = true
      · simp [List.find?_cons, hp]
      · simp only [Bool.not_eq_true] at hp
        simp [List.find?_cons, hp, ih]
    · have hp : p a = false := by
        cases hpa : p a
        · rfl
        · exact absurd (himp a hpa) hq
      simp only [Bool.not_eq_true] at hq
      simp [List.filter_cons, hq, List.find?_cons, hp, ih]

/-- Membership in the first-wins result is exactly being the first
element of the input with one's key: the first occurrence of each key is
retained, every later one is discarded. -/
theorem fwBy_mem_iff {α : Type} (k : α → String) :
    ∀ l : List α, ∀ g : α,
      g ∈ fwBy k l ↔ l.find? (fun y => k y == k g) = some g := by
  intro l
  induction l using fwBy.induct k with
  | case1 => intro g; simp [fwBy_nil]
  | case2 x rest ih =>
    intro g
    rw [fwBy_cons]
    by_cases hkey : k x = k g
    · have hx : (k x == k g) = true := beq_iff_eq.mpr hkey
      rw [List.find?_cons, hx]
      simp only [List.mem_cons, Option.some.injEq]
      constructor
      · rintro (rfl | hmem)
        · rfl
        · have hf := List.of_mem_filter (mem_of_mem_fwBy hmem)
          simp only [Bool.not_eq_true', beq_eq_false_iff_ne, ne_eq] at hf
          exact absurd hkey.symm hf
      · rintro rfl; exact Or.inl rfl
    · have hx : (k x == k g) = false := beq_eq_false_iff_ne.mpr hkey
      rw [List.find?_cons, hx]
      have hgx : g ≠ x := fun hgx => hkey (by rw [hgx])
      have hmemx : (g ∈ x :: fwBy k (rest.filter fun y => !(k y == k x))) ↔
          g ∈ fwBy k (rest.filter fun y => !(k y == k x)) := by
        simp [List.mem_cons, hgx]
      rw [hmemx, ih g, find?_filter_of_imp]
      intro a ha
      have hag : k a = k g := beq_iff_eq.mp ha
      simp only [Bool.not_eq_true', beq_eq_false_iff_ne, ne_eq]
      intro hax
      exact hkey (hax ▸ hag)

/-- First-wins dedup is idempotent. -/
theorem fwBy_idem {α : Type} (k : α → String) :
    ∀ l : List α, fwBy k (fwBy k l) = fwBy k l := by
  intro l
  induction l using fwBy.induct k with
  | case1 => simp [fwBy_nil]
  | case2 x rest ih =>
    rw [fwBy_cons, fwBy_cons]
    have hself :
        (fwBy k (rest.filter fun y => !(k y == k x))).filter
            (fun y => !(k y == k x))
          = fwBy k (rest.filter fun y => !(k y == k x)) := by
      apply List.filter_eq_self.mpr
      intro y hy
      have hy' := mem_of_mem_fwBy hy
      exact (List.mem_filter.mp hy').2
    rw [hself, ih]


/-- The dedup fold of `analyze_project` is first-wins dedup keyed by the
finding id. -/
theorem pyDedup_eq_fwBy (l : List Finding) :
    pyDedup l = fwBy (fun f => f.id) l := by
  unfold pyDedup
  have h := foldl_step_eq_fwBy (fun f : Finding => f.id) l []
  simp only [List.any_nil, Bool.not_false, List.nil_append, List.filter_true] at h
  exact h

/-- `list(set(files))` is first-wins dedup keyed by the path value. -/
theorem setDedup_eq_fwBy (l : List PathEntry) :
    setDedup l = fwBy (fun p => p.path) l := by
  unfold setDedup
  have h := foldl_step_eq_fwBy (fun p : PathEntry => p.path) l []
  simp only [List.any_nil, Bool.not_false, List.nil_append, List.filter_true] at h
  exact h

/-! ## Length of the finding identifier -/

theorem flatten_map_byteHex_length (bs : List Nat) :
    ((bs.map byteHex).flatten).length = 2 * bs.length := by
  induction bs with
  | nil => rfl
  | cons b t ih =>
    simp only [List.map_cons, List.flatten_cons, List.length_append, ih,
      List.length_cons, byteHex, List.length_cons, List.length_nil]
    omega

theorem md5Bytes_length (msg : List Nat) : (md5Bytes msg).length = 16 := by
  simp [md5Bytes, wordLEBytes]

theorem md5HexChars_length (s : String) : (md5HexChars s).length = 32 := by
  rw [md5HexChars, flatten_map_byteHex_length, md5Bytes_length]

/-- The finding identifier always has exactly 16 characters. -/
theorem findingId_length (file title : String) : (findingId file title).length = 16 := by
  show (((md5HexChars (file ++ ":" ++ title)).take 16).asString).length = 16
  have h : ∀ l : List Char, (l.asString).length = l.length := fun l => rfl
  rw [h, List.length_take, md5HexChars_length]
  decide

/-! The embedded MD5 agrees with `hashlib.md5` on the RFC 1321 test
vectors and on a concrete finding identifier. -/

set_option maxRecDepth 40000 in
example : md5Hex "" = "d41d8cd98f00b204e9800998ecf8427e" := rfl

set_option maxRecDepth 40000 in
example : md5Hex "abc" = "900150983cd24fb0d6963f7d28e17f72" := rfl

set_option maxRecDepth 40000 in
example : findingId "a.sol" "Reentrancy" = "90c887acb8612670" := rfl

/-! ## Inversion of the candidate-to-Finding conversion -/

/-- A successfully converted candidate is a mapping, and the resulting
`Finding` carries exactly the extracted fields: `file` is the analyzed
filename, `reported_by_model` the configured model, `status` the
dataclass default, and `id` the content-derived hash of `file` and
`title` assigned by `__post_init__`. -/
theorem buildFinding_ok {m fn : String} {j : Json} {r : Finding}
    (h : buildFinding m fn j = .ok r) :
    ∃ kvs, j = .obj kvs
      ∧ getStr kvs "title" "Unknown" = .ok r.title
      ∧ getStr kvs "description" "" = .ok r.description
      ∧ getStr kvs "vulnerability_type" "other" = .ok r.vulnerability_type
      ∧ getStr kvs "severity" "medium" = .ok r.severity
      ∧ getNum kvs "confidence" (1 / 2) = .ok r.confidence
      ∧ getStr kvs "location" "unknown" = .ok r.location
      ∧ r.file = fn ∧ r.id = findingId fn r.title
      ∧ r.reported_by_model = m ∧ r.status = "proposed" := by
  cases j with
  | null => simp [buildFinding] at h
  | bool b => simp [buildFinding] at h
  | num q => simp [buildFinding] at h
  | str s => simp [buildFinding] at h
  | arr l => simp [buildFinding] at h
  | obj kvs =>
    rcases h1 : getStr kvs "title" "Unknown" with e1 | title <;>
      rcases h2 : getStr kvs "description" "" with e2 | dsc <;>
      rcases h3 : getStr kvs "vulnerability_type" "other" with e3 | vt <;>
      rcases h4 : getStr kvs "severity" "medium" with e4 | sev <;>
      rcases h5 : getNum kvs "confidence" (1 / 2) with e5 | conf <;>
      rcases h6 : getStr kvs "location" "unknown" with e6 | loc <;>
      simp only [buildFinding, h1, h2, h3, h4, h5, h6] at h <;>
      first
      | exact Except.noConfusion h
      | (rw [Except.ok.injEq] at h
         subst h
         exact ⟨kvs, rfl, h1, h2, h3, h4, h5, h6, rfl, by simp [mkFinding], rfl, rfl⟩)

/-! ## Claims -/

/-- Claim C1: every Finding built by the normalizer receives as id the
fixed-length (16-character) MD5-derived hash of its file and title, so
the id is a pure function of the (file, title) pair: any two findings
with equal file and title have equal ids regardless of every other
field, and the same pair always yields the same id. -/
theorem finding_id_pure_function :
    (∀ m₁ fn₁ j₁ r₁ m₂ fn₂ j₂ r₂,
        buildFinding m₁ fn₁ j₁ = .ok r₁ → buildFinding m₂ fn₂ j₂ = .ok r₂ →
        r₁.file = r₂.file → r₁.title = r₂.title → r₁.id = r₂.id)
    ∧ (∀ m fn j r, buildFinding m fn j = .ok r →
        r.id = findingId r.file r.title ∧ r.id.length = 16) := by
  have hkey : ∀ m fn j r, buildFinding m fn j = .ok r →
      r.id = findingId r.file r.title := by
    intro m fn j r h
    obtain ⟨kvs, _, _, _, _, _, _, _, hfile, hid, _, _⟩ := buildFinding_ok h
    rw [hfile, hid]
  constructor
  · intro m₁ fn₁ j₁ r₁ m₂ fn₂ j₂ r₂ h₁ h₂ hf ht
    rw [hkey _ _ _ _ h₁, hkey _ _ _ _ h₂, hf, ht]
  · intro m fn j r h
    refine ⟨hkey _ _ _ _ h, ?_⟩
    rw [hkey _ _ _ _ h, findingId_length]

/-- Witness for C1: two candidates differing in every model-supplied
field except the title, analyzed in the same file with different
configured models, are assigned the same id. -/
theorem finding_id_pure_function_witness :
    (mkFinding "Reentrancy" "" "other" "high" (1 / 2) "unknown" "a.sol" "" "m1" "proposed").id
      = (mkFinding "Reentrancy" "d" "other" "medium" (1 / 2) "l5" "a.sol" "" "m2" "proposed").id :=
  finding_id_pure_function.1 "m1" "a.sol"
    (Json.obj [("title", Json.str "Reentrancy"), ("severity", Json.str "high")])
    (mkFinding "Reentrancy" "" "other" "high" (1 / 2) "unknown" "a.sol" "" "m1" "proposed")
    "m2" "a.sol"
    (Json.obj [("title", Json.str "Reentrancy"), ("description", Json.str "d"),
      ("location", Json.str "l5")])
    (mkFinding "Reentrancy" "d" "other" "medium" (1 / 2) "l5" "a.sol" "" "m2" "proposed")
    rfl rfl rfl rfl

/-- Claim C2: every result of analyzeProject satisfies
`total_findings = findings.length`, and the ids of its findings are
pairwise distinct. -/
theorem analyzeProject_result_invariant (model project ts : String)
    (files : List FileTask) :
    (analyzeProject model project ts files).total_findings
        = (analyzeProject model project ts files).findings.length
    ∧ ((analyzeProject model project ts files).findings.map Finding.id).Nodup := by
  unfold analyzeProject
  split
  · exact ⟨rfl, List.nodup_nil⟩
  · refine ⟨rfl, ?_⟩
    have h : ∀ fs : List Finding, ((pyDedup fs).map Finding.id).Nodup := by
      intro fs
      rw [pyDedup_eq_fwBy]
      exact fwBy_keys_nodup _ _
    exact h _

/-- Witness for C2 at a concrete run: one readable file whose response
repeats a title, one blank file, one unreadable file. -/
theorem analyzeProject_result_invariant_witness :
    (analyzeProject "m" "proj" "2024-01-01T00:00:00" [
        ⟨"a.sol", .ok "contract A", .ok (7, 3, Json.obj [("findings", Json.arr
          [Json.obj [("title", Json.str "X")], Json.obj [("title", Json.str "X")]])])⟩,
        ⟨"b.sol", .ok "  \n", .error ()⟩,
        ⟨"c.sol", .error (), .error ()⟩]).total_findings
      = (analyzeProject "m" "proj" "2024-01-01T00:00:00" [
        ⟨"a.sol", .ok "contract A", .ok (7, 3, Json.obj [("findings", Json.arr
          [Json.obj [("title", Json.str "X")], Json.obj [("title", Json.str "X")]])])⟩,
        ⟨"b.sol", .ok "  \n", .error ()⟩,
        ⟨"c.sol", .error (), .error ()⟩]).findings.length
    ∧ ((analyzeProject "m" "proj" "2024-01-01T00:00:00" [
        ⟨"a.sol", .ok "contract A", .ok (7, 3, Json.obj [("findings", Json.arr
          [Json.obj [("title", Json.str "X")], Json.obj [("title", Json.str "X")]])])⟩,
        ⟨"b.sol", .ok "  \n", .error ()⟩,
        ⟨"c.sol", .error (), .error ()⟩]).findings.map Finding.id).Nodup :=
  analyzeProject_result_invariant "m" "proj" "2024-01-01T00:00:00" _

/-- Claim C3: the dedup fold keeps, for every id, exactly the first
finding in sequence order bearing it (`find?` of that id) and discards
every later one (the kept findings form a sublist with pairwise-distinct
ids), and the fold is idempotent. -/
theorem pyDedup_first_wins (l : List Finding) :
    (pyDedup l).Sublist l
    ∧ ((pyDedup l).map Finding.id).Nodup
    ∧ (∀ g : Finding, g ∈ pyDedup l ↔ l.find? (fun y => y.id == g.id) = some g)
    ∧ pyDedup (pyDedup l) = pyDedup l := by
  rw [pyDedup_eq_fwBy]
  refine ⟨fwBy_sublist _ l, fwBy_keys_nodup _ l, ?_, ?_⟩
  · intro g
    exact fwBy_mem_iff (fun f => f.id) l g
  · rw [pyDedup_eq_fwBy (fwBy (fun f => f.id) l)]
    exact fwBy_idem _ _

/-- Witness for C3: on a concrete accumulation with a duplicated id the
fold is idempotent and retains the first occurrence of the id. -/
theorem pyDedup_first_wins_witness :
    pyDedup (pyDedup [
        (⟨"T1", "", "o", "high", 1 / 2, "u", "a.sol", "id1", "m", "proposed"⟩ : Finding),
        ⟨"T2", "", "o", "low", 1 / 2, "u", "b.sol", "id1", "m", "proposed"⟩,
        ⟨"T3", "", "o", "low", 1 / 2, "u", "c.sol", "id2", "m", "proposed"⟩])
      = pyDedup [
        ⟨"T1", "", "o", "high", 1 / 2, "u", "a.sol", "id1", "m", "proposed"⟩,
        ⟨"T2", "", "o", "low", 1 / 2, "u", "b.sol", "id1", "m", "proposed"⟩,
        ⟨"T3", "", "o", "low", 1 / 2, "u", "c.sol", "id2", "m", "proposed"⟩]
    ∧ ((⟨"T2", "", "o", "low", 1 / 2, "u", "b.sol", "id1", "m", "proposed"⟩ : Finding)
        ∈ pyDedup [
          ⟨"T1", "", "o", "high", 1 / 2, "u", "a.sol", "id1", "m", "proposed"⟩,
          ⟨"T2", "", "o", "low", 1 / 2, "u", "b.sol", "id1", "m", "proposed"⟩,
          ⟨"T3", "", "o", "low", 1 / 2, "u", "c.sol", "id2", "m", "proposed"⟩]
        ↔ [(⟨"T1", "", "o", "high", 1 / 2, "u", "a.sol", "id1", "m", "proposed"⟩ : Finding),
           ⟨"T2", "", "o", "low", 1 / 2, "u", "b.sol", "id1", "m", "proposed"⟩,
           ⟨"T3", "", "o", "low", 1 / 2, "u", "c.sol", "id2", "m", "proposed"⟩].find?
             (fun y => y.id == (⟨"T2", "", "o", "low", 1 / 2, "u", "b.sol", "id1",
                 "m", "proposed"⟩ : Finding).id)
           = some ⟨"T2", "", "o", "low", 1 / 2, "u", "b.sol", "id1", "m", "proposed"⟩) :=
  ⟨(pyDedup_first_wins [
      ⟨"T1", "", "o", "high", 1 / 2, "u", "a.sol", "id1", "m", "proposed"⟩,
      ⟨"T2", "", "o", "low", 1 / 2, "u", "b.sol", "id1", "m", "proposed"⟩,
      ⟨"T3", "", "o", "low", 1 / 2, "u", "c.sol", "id2", "m", "proposed"⟩]).2.2.2,
   (pyDedup_first_wins [
      ⟨"T1", "", "o", "high", 1 / 2, "u", "a.sol", "id1", "m", "proposed"⟩,
      ⟨"T2", "", "o", "low", 1 / 2, "u", "b.sol", "id1", "m", "proposed"⟩,
      ⟨"T3", "", "o", "low", 1 / 2, "u", "c.sol", "id2", "m", "proposed"⟩]).2.2.1
     ⟨"T2", "", "o", "low", 1 / 2, "u", "b.sol", "id1", "m", "proposed"⟩⟩

/-- Claim C4 as stated is false on the code: the normalizer performs no
validation of the model-supplied values; a response carrying severity
"bogus" and confidence 2 yields a Finding with exactly those values,
severity outside the four levels and confidence outside [0, 1]. -/
theorem normalizer_no_validation_counterexample :
    ((normalizeResponse "m" "a.sol"
        (Json.obj [("findings", Json.arr [Json.obj
          [("title", Json.str "X"), ("severity", Json.str "bogus"),
           ("confidence", Json.num 2)]])])).toOption.getD []).map Finding.severity
      = ["bogus"]
    ∧ ((normalizeResponse "m" "a.sol"
        (Json.obj [("findings", Json.arr [Json.obj
          [("title", Json.str "X"), ("severity", Json.str "bogus"),
           ("confidence", Json.num 2)]])])).toOption.getD []).map Finding.confidence
      = [(2 : Rat)]
    ∧ "bogus" ∉ (["critical", "high", "medium", "low"] : List String)
    ∧ ¬ ((2 : Rat) ≤ 1) := by
  refine ⟨rfl, rfl, by decide, by norm_num⟩

/-- Claim C4 amended: severity defaults to "medium" and confidence to
0.5 when absent, but a supplied value is taken verbatim without
validation; whenever every supplied severity is one of the four levels
and every supplied confidence lies in [0, 1] — what the prompt instructs
the model to produce — the constructed Finding satisfies the original
bounds. -/
theorem normalizer_validated_inputs (m fn : String) (j : Json) (r : Finding)
    (h : buildFinding m fn j = .ok r)
    (hsev : ∀ kvs v, j = Json.obj kvs → List.lookup "severity" kvs = some v →
        ∃ s, v = Json.str s ∧ s ∈ ["critical", "high", "medium", "low"])
    (hconf : ∀ kvs v, j = Json.obj kvs → List.lookup "confidence" kvs = some v →
        ∃ q, v = Json.num q ∧ 0 ≤ q ∧ q ≤ 1) :
    r.severity ∈ ["critical", "high", "medium", "low"]
    ∧ 0 ≤ r.confidence ∧ r.confidence ≤ 1 := by
  obtain ⟨kvs, hj, _, _, _, hsev', hconf', _, _, _, _, _⟩ := buildFinding_ok h
  subst hj
  refine ⟨?_, ?_⟩
  · cases hl : List.lookup "severity" kvs with
    | none =>
      simp only [getStr, hl] at hsev'
      rw [Except.ok.injEq] at hsev'
      rw [← hsev']
      decide
    | some v =>
      obtain ⟨s, hv, hmem⟩ := hsev kvs v rfl hl
      subst hv
      simp only [getStr, hl] at hsev'
      rw [Except.ok.injEq] at hsev'
      rw [← hsev']
      exact hmem
  · cases hl : List.lookup "confidence" kvs with
    | none =>
      simp only [getNum, hl] at hconf'
      rw [Except.ok.injEq] at hconf'
      rw [← hconf']
      norm_num
    | some v =>
      obtain ⟨q, hv, hq0, hq1⟩ := hconf kvs v rfl hl
      subst hv
      simp only [getNum, hl] at hconf'
      rw [Except.ok.injEq] at hconf'
      rw [← hconf']
      exact ⟨hq0, hq1⟩

/-- Witness for the amended C4: a response whose supplied severity is
one of the four levels and whose confidence is 1 yields a Finding inside
the original bounds. -/
theorem normalizer_validated_inputs_witness :
    (mkFinding "X" "" "other" "high" 1 "unknown" "a.sol" "" "m" "proposed").severity
        ∈ ["critical", "high", "medium", "low"]
    ∧ (0 : Rat) ≤ (mkFinding "X" "" "other" "high" 1 "unknown" "a.sol" "" "m" "proposed").confidence
    ∧ (mkFinding "X" "" "other" "high" 1 "unknown" "a.sol" "" "m" "proposed").confidence ≤ 1 :=
  normalizer_validated_inputs "m" "a.sol"
    (Json.obj [("title", Json.str "X"), ("severity", Json.str "high"),
      ("confidence", Json.num 1)])
    (mkFinding "X" "" "other" "high" 1 "unknown" "a.sol" "" "m" "proposed")
    rfl
    (by intro kvs v hk hl
        cases hk
        injection hl with hv
        subst hv
        exact ⟨"high", rfl, by decide⟩)
    (by intro kvs v hk hl
        cases hk
        injection hl with hv
        subst hv
        exact ⟨1, rfl, by norm_num⟩)

/-- Claim C5: a response mapping without `findings` whose
`vulnerabilities` key holds `[ \x7b"title": "X"\x7d ]` normalizes to exactly
one Finding titled "X" with the default severity "medium" and with
`file` the real analyzed filename; and the shape dispatch tries, in
order: sequence, mapping key `findings`, key `vulnerabilities`, a
mapping with a `title` key as a single finding, else zero findings. -/
theorem normalizer_shape_order :
    (∃ f, normalizeResponse "m" "contract.sol"
        (Json.obj [("vulnerabilities", Json.arr [Json.obj [("title", Json.str "X")]])])
          = .ok [f]
        ∧ f.title = "X" ∧ f.severity = "medium" ∧ f.file = "contract.sol")
    ∧ (∀ l, extractFindingsData (Json.arr l) = .ok l)
    ∧ (∀ kvs l, List.lookup "findings" kvs = some (Json.arr l) →
        extractFindingsData (Json.obj kvs) = .ok l)
    ∧ (∀ kvs l, List.lookup "findings" kvs = none →
        List.lookup "vulnerabilities" kvs = some (Json.arr l) →
        extractFindingsData (Json.obj kvs) = .ok l)
    ∧ (∀ kvs v, List.lookup "findings" kvs = none →
        List.lookup "vulnerabilities" kvs = none →
        List.lookup "title" kvs = some v →
        extractFindingsData (Json.obj kvs) = .ok [Json.obj kvs])
    ∧ (∀ kvs, List.lookup "findings" kvs = none →
        List.lookup "vulnerabilities" kvs = none →
        List.lookup "title" kvs = none →
        extractFindingsData (Json.obj kvs) = .ok [])
    ∧ (∀ m fn j r, buildFinding m fn j = .ok r → r.file = fn) := by
  refine ⟨⟨mkFinding "X" "" "other" "medium" (1 / 2) "unknown" "contract.sol" "" "m"
      "proposed", rfl, rfl, rfl, rfl⟩, ?_, ?_, ?_, ?_, ?_, ?_⟩
  · intro l; rfl
  · intro kvs l h
    simp [extractFindingsData, h]
  · intro kvs l h1 h2
    simp [extractFindingsData, h1, h2]
  · intro kvs v h1 h2 h3
    simp [extractFindingsData, h1, h2, h3]
  · intro kvs h1 h2 h3
    simp [extractFindingsData, h1, h2, h3]
  · intro m fn j r h
    obtain ⟨kvs, _, _, _, _, _, _, _, hfile, _, _, _⟩ := buildFinding_ok h
    exact hfile

/-- Witness for C5: the shape order applied at concrete mappings — a
mapping with both `vulnerabilities` and `title` but no findings uses
`vulnerabilities`; one with only `title` becomes a single candidate. -/
theorem normalizer_shape_order_witness :
    extractFindingsData (Json.obj [("vulnerabilities", Json.arr []),
        ("title", Json.str "T")]) = .ok []
    ∧ extractFindingsData (Json.obj [("title", Json.str "T")])
        = .ok [Json.obj [("title", Json.str "T")]]
    ∧ extractFindingsData (Json.obj [("note", Json.str "n")]) = .ok [] :=
  ⟨normalizer_shape_order.2.2.2.1 [("vulnerabilities", Json.arr []),
      ("title", Json.str "T")] [] rfl rfl,
   normalizer_shape_order.2.2.2.2.1 [("title", Json.str "T")] (Json.str "T")
      rfl rfl rfl,
   normalizer_shape_order.2.2.2.2.2.1 [("note", Json.str "n")] rfl rfl rfl⟩

/-- Claim C6: an exception during the request or parse makes the file
analyzer return `([], 0, 0)` instead of propagating; at the orchestrator
such a file still counts in `files_analyzed` and not in `files_skipped`,
and `files_skipped` grows exactly for files never submitted (failed read
or blank content). -/
theorem analysis_failure_absorbed (model : String) (st : LoopState) (task : FileTask) :
    (∀ fn e, analyzeFile model fn (Except.error e) = ([], 0, 0))
    ∧ (∀ c, task.read = .ok c → pyIsBlank c = false →
        (procFile model st task).files_analyzed = st.files_analyzed + 1
        ∧ (procFile model st task).files_skipped = st.files_skipped)
    ∧ ((procFile model st task).files_skipped = st.files_skipped + 1 ↔
        (∃ e, task.read = .error e) ∨ (∃ c, task.read = .ok c ∧ pyIsBlank c = true)) := by
  refine ⟨fun fn e => rfl, ?_, ?_⟩
  · intro c hr hb
    unfold procFile
    rw [hr]
    simp [hb]
  · cases hr : task.read with
    | error e =>
      have hp : (procFile model st task).files_skipped = st.files_skipped + 1 := by
        unfold procFile
        rw [hr]
      rw [hp]
      constructor
      · intro _
        exact Or.inl ⟨e, rfl⟩
      · intro _
        rfl
    | ok c =>
      by_cases hb : pyIsBlank c = true
      · have hp : (procFile model st task).files_skipped = st.files_skipped + 1 := by
          unfold procFile
          rw [hr]
          simp [hb]
        rw [hp]
        constructor
        · intro _
          exact Or.inr ⟨c, rfl, hb⟩
        · intro _
          rfl
      · have hp : (procFile model st task).files_skipped = st.files_skipped := by
          unfold procFile
          rw [hr]
          simp [hb]
        rw [hp]
        constructor
        · intro hcontra
          omega
        · rintro (⟨e, he⟩ | ⟨c', hc', hbc'⟩)
          · exact Except.noConfusion he
          · rw [Except.ok.injEq] at hc'
            subst hc'
            exact absurd hbc' hb

/-- Witness for C6: a concrete non-blank file whose request raises is
absorbed, counted as analyzed and not skipped. -/
theorem analysis_failure_absorbed_witness :
    analyzeFile "m" "a.sol" (Except.error ()) = ([], 0, 0)
    ∧ (procFile "m" ⟨[], 0, 0, 0, 0⟩ ⟨"a.sol", .ok "contract A", .error ()⟩).files_analyzed
        = 0 + 1
    ∧ (procFile "m" ⟨[], 0, 0, 0, 0⟩ ⟨"a.sol", .ok "contract A", .error ()⟩).files_skipped
        = 0 :=
  ⟨(analysis_failure_absorbed "m" ⟨[], 0, 0, 0, 0⟩
      ⟨"a.sol", .ok "contract A", .error ()⟩).1 "a.sol" (),
   ((analysis_failure_absorbed "m" ⟨[], 0, 0, 0, 0⟩
      ⟨"a.sol", .ok "contract A", .error ()⟩).2.1 "contract A" rfl rfl).1,
   ((analysis_failure_absorbed "m" ⟨[], 0, 0, 0, 0⟩
      ⟨"a.sol", .ok "contract A", .error ()⟩).2.1 "contract A" rfl rfl).2⟩

/-- Claim C7: with zero candidate files the orchestrator short-circuits
the per-file loop and returns the all-zero result. -/
theorem analyzeProject_empty (model project ts : String) :
    analyzeProject model project ts []
      = { project := project, timestamp := ts, files_analyzed := 0,
          files_skipped := 0, total_findings := 0, findings := [],
          token_usage := ⟨0, 0, 0⟩ } := rfl

/-- Witness for C7 at concrete arguments. -/
theorem analyzeProject_empty_witness :
    analyzeProject "gpt-5-mini" "proj" "2024-01-01T00:00:00" []
      = { project := "proj", timestamp := "2024-01-01T00:00:00",
          files_analyzed := 0, files_skipped := 0, total_findings := 0,
          findings := [], token_usage := ⟨0, 0, 0⟩ } :=
  analyzeProject_empty "gpt-5-mini" "proj" "2024-01-01T00:00:00"

/-- Claim C8: a file whose read content is blank (empty or whitespace
only) is counted as skipped and the analyzer is not invoked for it: the
loop state is unchanged except for `files_skipped`, independently of the
file's request outcome. -/
theorem blank_file_skipped (model : String) (st : LoopState) (task : FileTask)
    (c : String) (hr : task.read = .ok c) (hb : pyIsBlank c = true) :
    procFile model st task = { st with files_skipped := st.files_skipped + 1 } := by
  unfold procFile
  rw [hr]
  simp [hb]

/-- Witness for C8: a whitespace-only file, carrying a request outcome
that would produce a finding, only increments the skip counter. -/
theorem blank_file_skipped_witness :
    procFile "m" ⟨[], 2, 1, 5, 6⟩ ⟨"a.sol", .ok "  \n\t", .ok (9, 9,
        Json.obj [("findings", Json.arr [Json.obj [("title", Json.str "X")]])])⟩
      = ⟨[], 2, 2, 5, 6⟩ :=
  blank_file_skipped "m" ⟨[], 2, 1, 5, 6⟩ ⟨"a.sol", .ok "  \n\t", .ok (9, 9,
      Json.obj [("findings", Json.arr [Json.obj [("title", Json.str "X")]])])⟩
    "  \n\t" rfl rfl

/-- Claim C9: the post-filtered candidate set has pairwise-distinct path
identities, contains only regular files, and contains no entry whose
filename, lowercased, has "test" as a substring. -/
theorem selectFilter_sound (files : List PathEntry) :
    ((selectFilter files).map PathEntry.path).Nodup
    ∧ ∀ f ∈ selectFilter files, f.isFile = true
        ∧ hasSub f.name.toLower.data "test".data = false := by
  constructor
  · have h1 : ((setDedup files).map PathEntry.path).Nodup := by
      rw [setDedup_eq_fwBy]
      exact fwBy_keys_nodup _ _
    have h2 : (selectFilter files).Sublist (setDedup files) := List.filter_sublist _
    exact h1.sublist (h2.map PathEntry.path)
  · intro f hf
    have hp := (List.mem_filter.mp hf).2
    simp only [Bool.and_eq_true, Bool.not_eq_true'] at hp
    exact hp

/-- Witness for C9 on a concrete enumeration with a duplicate path, a
directory, and a test fixture. -/
theorem selectFilter_sound_witness :
    ((selectFilter [⟨"src/a.sol", "a.sol", true⟩, ⟨"src/a.sol", "a.sol", true⟩,
        ⟨"src/MyTest.sol", "MyTest.sol", true⟩, ⟨"src/lib", "lib", false⟩,
        ⟨"src/b.sol", "b.sol", true⟩]).map PathEntry.path).Nodup
    ∧ ∀ f ∈ selectFilter [⟨"src/a.sol", "a.sol", true⟩, ⟨"src/a.sol", "a.sol", true⟩,
        ⟨"src/MyTest.sol", "MyTest.sol", true⟩, ⟨"src/lib", "lib", false⟩,
        ⟨"src/b.sol", "b.sol", true⟩], f.isFile = true
        ∧ hasSub f.name.toLower.data "test".data = false :=
  selectFilter_sound [⟨"src/a.sol", "a.sol", true⟩, ⟨"src/a.sol", "a.sol", true⟩,
    ⟨"src/MyTest.sol", "MyTest.sol", true⟩, ⟨"src/lib", "lib", false⟩,
    ⟨"src/b.sol", "b.sol", true⟩]

/-- Claim C10: the dataclass constructor keeps a non-empty supplied id
verbatim; the content-derived hash is computed and assigned only when
the supplied id is the empty string, as it is for every Finding the
normalizer creates. -/
theorem mkFinding_explicit_id (t d v s : String) (c : Rat)
    (loc file rbm stat : String) :
    (∀ id, id ≠ "" → (mkFinding t d v s c loc file id rbm stat).id = id)
    ∧ (mkFinding t d v s c loc file "" rbm stat).id = findingId file t := by
  constructor
  · intro id hid
    simp [mkFinding, hid]
  · simp [mkFinding]

/-- Witness for C10: a supplied id survives construction unchanged. -/
theorem mkFinding_explicit_id_witness :
    (mkFinding "T" "" "other" "medium" (1 / 2) "u" "a.sol" "custom-id" "m"
        "proposed").id = "custom-id" :=
  (mkFinding_explicit_id "T" "" "other" "medium" (1 / 2) "u" "a.sol" "m"
      "proposed").1 "custom-id" (by decide)
